import Mathlib

/-!
Shallow embedding of the per-sensor labeling engine of
`atom_calibration/collect/interactive_data_labeler.py`.

Conventions of the embedding:
* Machine floats are modelled as rationals.  The source compares Euclidean
  distances `sqrt(dx^2 + dy^2)` against non-negative thresholds; since
  `sqrt` is strictly monotone on non-negatives, every such comparison is
  embedded as the equivalent comparison of the squared distance against the
  squared threshold, which keeps all definitions executable over `Rat`.
* Python list indexing `l[i]` (which accepts negative indices counting from
  the end) is embedded by `pyGet`; Python `int()` truncation by `pyInt`;
  Python 3 `round` (banker rounding, half to even) by `pyRound`.
* A Python exception is modelled as `Except.error`.
-/

deriving instance DecidableEq for Except

/-- `LaserScanCluster` from the source: a cluster id plus the ordered list of
range-array indices in the cluster. -/
structure LaserScanCluster where
  cluster_count : Nat
  idxs : List Nat
deriving DecidableEq, Repr

instance : Inhabited LaserScanCluster := ⟨⟨0, []⟩⟩

/-- `LaserScanCluster.pushIdx` from the source: append one index. -/
def pushIdx (c : LaserScanCluster) (idx : Nat) : LaserScanCluster :=
  { c with idxs := c.idxs ++ [idx] }

/-- The labels dictionary of the labeler: `self.labels` with keys
`detected` and `idxs`. -/
structure Labels where
  detected : Bool
  idxs : List Nat
deriving DecidableEq, Repr

/-- Python list read `l[i]` with the negative-index convention
(`l[-1]` is the last element).  Out-of-range reads, which raise in Python,
return the default; every use below is in range. -/
def pyGet (l : List ℚ) (i : Int) : ℚ :=
  if i < 0 then l.getD (l.length - (-i).toNat) 0 else l.getD i.toNat 0

/-- Python `int()` applied to a float: truncation toward zero. -/
def pyInt (q : ℚ) : Int :=
  if 0 ≤ q then Int.floor q else Int.ceil q

/-- Python 3 `round` on a float: round half to even. -/
def pyRound (q : ℚ) : Int :=
  let f := Int.floor q
  let r := q - f
  if r < 1/2 then f
  else if 1/2 < r then f + 1
  else if f % 2 = 0 then f else f + 1

/-- Python `l[-1]` for a generic element type with an explicit default. -/
def lastD {α : Type} (l : List α) (d : α) : α :=
  l.getD (l.length - 1) d

/-- Source constant `self.threshold = 0.2`: point-to-point distance above
which a new cluster is created (2D LIDAR labeling only). -/
def threshold : ℚ := 2/10

/-- Source constant `self.minimum_range_value = 0.3`: distance below which a
range value is considered invalid. -/
def minimum_range_value : ℚ := 3/10

/-- Source constant `sys.maxint` (the Python 2 value on a 64-bit platform),
used as the initial minimum distance of the association scan. -/
def sys_maxint : ℚ := 2 ^ 63 - 1

/-- The skip test of the clustering loop: the point at `idx` is skipped when
its own range, or the range read at Python index `idx - 1` (for `idx = 0`
this is `ranges[-1]`, the last element), is below `minv`. -/
def skipPoint (minv : ℚ) (ranges : List ℚ) (idx : Nat) : Bool :=
  decide (pyGet ranges idx < minv) || decide (pyGet ranges ((idx : Int) - 1) < minv)

/-- The mutable state of the clustering loop: the cluster list, the cluster
counter and the first-iteration flag. -/
structure ClusterState where
  clusters : List LaserScanCluster
  cluster_counter : Nat
  first_iteration : Bool
deriving DecidableEq, Repr

/-- One iteration of the clustering loop of `labelData` (lidar2d branch) at
index `idx`: skip invalid points; open the first cluster on the first valid
point; afterwards compare the squared distance to the last point of the last
cluster with the squared threshold, opening a new cluster when it is
exceeded and appending to the current cluster otherwise. -/
def clusterStep (minv thr : ℚ) (ranges xs ys : List ℚ) (st : ClusterState) (idx : Nat) :
    ClusterState :=
  if skipPoint minv ranges idx then st
  else if st.first_iteration then
    { clusters := st.clusters ++ [{ cluster_count := st.cluster_counter, idxs := [idx] }]
      cluster_counter := st.cluster_counter
      first_iteration := false }
  else
    let last := lastD st.clusters default
    let lastIdx := lastD last.idxs 0
    let x := xs.getD lastIdx 0
    let y := ys.getD lastIdx 0
    let distSq := (xs.getD idx 0 - x) ^ 2 + (ys.getD idx 0 - y) ^ 2
    if thr ^ 2 < distSq then
      { clusters := st.clusters ++ [{ cluster_count := st.cluster_counter + 1, idxs := [idx] }]
        cluster_counter := st.cluster_counter + 1
        first_iteration := false }
    else
      { clusters := st.clusters.dropLast ++ [pushIdx last idx]
        cluster_counter := st.cluster_counter
        first_iteration := false }

/-- The full clustering pass: fold `clusterStep` over all indices of the
range array, starting from an empty cluster list. -/
def clusterRanges (minv thr : ℚ) (ranges xs ys : List ℚ) : ClusterState :=
  (List.range ranges.length).foldl (clusterStep minv thr ranges xs ys)
    { clusters := [], cluster_counter := 0, first_iteration := true }

/-- The flattened association scan order: for the clusters starting at
cluster index `ci`, the pairs (cluster index, squared distance of the point
to the marker), in cluster-then-index iteration order. -/
def clusterPointsAux (xs ys : List ℚ) (xm ym : ℚ) :
    Nat → List LaserScanCluster → List (Nat × ℚ)
  | _, [] => []
  | ci, c :: rest =>
    c.idxs.map (fun idx => (ci, (xm - xs.getD idx 0) ^ 2 + (ym - ys.getD idx 0) ^ 2))
      ++ clusterPointsAux xs ys xm ym (ci + 1) rest

/-- The association scan order starting at cluster index 0. -/
def clusterPoints (xs ys : List ℚ) (xm ym : ℚ) (clusters : List LaserScanCluster) :
    List (Nat × ℚ) :=
  clusterPointsAux xs ys xm ym 0 clusters

/-- The inner update of the association stage: keep the pair with the
strictly smaller squared distance, the incumbent winning ties. -/
def scanMin : List (Nat × ℚ) → Nat × ℚ → Nat × ℚ
  | [], acc => acc
  | p :: rest, acc => scanMin rest (if p.2 < acc.2 then p else acc)

/-- The association stage of `labelData` (lidar2d branch): scan every point
of every cluster and return `idx_closest_cluster`, starting from cluster 0
and `min_dist = sys.maxint` (squared distances compare squared). -/
def association (xs ys : List ℚ) (xm ym : ℚ) (clusters : List LaserScanCluster) : Nat :=
  (scanMin (clusterPoints xs ys xm ym clusters) (0, sys_maxint ^ 2)).1

/-- Source constant `percentage_points_to_remove = 0.0`. -/
def percentage_points_to_remove : ℚ := 0

/-- The lidar2d branch of `InteractiveDataLabeler.labelData`, as a function
of the previous labels state, the thresholds, the frame (ranges plus the
Cartesian coordinates computed from them) and the marker position.  It
returns the new labels together with the new marker position (x, y, z), or
`Except.error` when the Python code raises (indexing `clusters[j]` into an
empty cluster list). -/
def lidar2dLabelData (labels : Labels) (minv thr : ℚ) (ranges xs ys : List ℚ)
    (xm ym : ℚ) : Except String (Labels × ℚ × ℚ × ℚ) :=
  let labels0 : Labels := { labels with detected := false, idxs := [] }
  let clusters := (clusterRanges minv thr ranges xs ys).clusters
  let j := association xs ys xm ym clusters
  match clusters[j]? with
  | none => Except.error ("IndexError")
  | some closest =>
    let x_sum := closest.idxs.foldl (fun s idx => s + xs.getD idx 0) 0
    let y_sum := closest.idxs.foldl (fun s idx => s + ys.getD idx 0) 0
    let px := x_sum / (closest.idxs.length : ℚ)
    let py := y_sum / (closest.idxs.length : ℚ)
    let number_of_idxs := closest.idxs.length
    let idxs_to_remove := (pyInt (percentage_points_to_remove * number_of_idxs)).toNat
    let idxs_filtered :=
      (closest.idxs.drop idxs_to_remove).take (number_of_idxs - idxs_to_remove - idxs_to_remove)
    Except.ok ({ labels0 with detected := true, idxs := idxs_filtered }, px, py, 0)

/-- Source constant `filter_border_edges = 0.025` of the depth branch. -/
def filter_border_edges : ℚ := 1/40

/-- The seed-update rule of the depth branch of `labelData`: the candidate
new seed is kept when `0 < x < width - filter_border_edges*width` and
`0 < y < height - filter_border_edges*height`; otherwise the seed is reset
to the image center `(round(width/2), round(height/2))`. -/
def depthSeedUpdate (new_seed : ℚ × ℚ) (width height : Nat) : ℚ × ℚ :=
  if 0 < new_seed.1 ∧ new_seed.1 < (width : ℚ) - filter_border_edges * width
      ∧ 0 < new_seed.2 ∧ new_seed.2 < (height : ℚ) - filter_border_edges * height
  then new_seed
  else (((pyRound ((width : ℚ) / 2) : Int) : ℚ), ((pyRound ((height : ℚ) / 2) : Int) : ℚ))

/-- The seed-update rule as the specification words it: the candidate is
accepted only when it lies strictly inside the image minus a border margin
of `filter_border_edges` times the dimension on each of the four sides. -/
def specBorderGate (new_seed : ℚ × ℚ) (width height : Nat) : ℚ × ℚ :=
  if filter_border_edges * width < new_seed.1
      ∧ new_seed.1 < (width : ℚ) - filter_border_edges * width
      ∧ filter_border_edges * height < new_seed.2
      ∧ new_seed.2 < (height : ℚ) - filter_border_edges * height
  then new_seed
  else (((pyRound ((width : ℚ) / 2) : Int) : ℚ), ((pyRound ((height : ℚ) / 2) : Int) : ℚ))

/-- The four modality strings handled by the constructor and by `labelData`. -/
def knownModalities : List String := ["lidar2d", "rgb", "lidar3d", "depth"]

/-- The modality dispatch of the constructor of `InteractiveDataLabeler`:
each known modality guarded by `label_data` sets up its branch; an unknown
modality raises `ValueError` when `label_data` is true; when `label_data` is
false the final else only prints and construction succeeds. -/
def constructorCheck (modality : String) (label_data : Bool) : Except String Unit :=
  if modality = "lidar2d" ∧ label_data then Except.ok ()
  else if modality = "rgb" ∧ label_data then Except.ok ()
  else if modality = "lidar3d" ∧ label_data then Except.ok ()
  else if modality = "depth" ∧ label_data then Except.ok ()
  else if label_data then Except.error ("Message type " ++ modality ++ " is of an unknown type")
  else Except.ok ()

/-- The branches of `labelData`. -/
inductive LabelBranch
  | lidar2d
  | rgb
  | lidar3d
  | depth
deriving DecidableEq, Repr

/-- The modality dispatch of `labelData`: the final else raises
`ValueError` on an unknown modality. -/
def labelDataBranch (modality : String) : Except String LabelBranch :=
  if modality = "lidar2d" then Except.ok LabelBranch.lidar2d
  else if modality = "rgb" then Except.ok LabelBranch.rgb
  else if modality = "lidar3d" then Except.ok LabelBranch.lidar3d
  else if modality = "depth" then Except.ok LabelBranch.depth
  else Except.error ("Unknown modality")

/-- Whether a frame arrival through `sensorDataReceivedCallback` reaches the
per-frame unknown-modality `ValueError`: `labelData` runs only when
`label_data` is true, and raises it only when the dispatch falls through. -/
def sensorCallbackRaisesUnknownModality (modality : String) (label_data : Bool) : Bool :=
  label_data &&
    (match labelDataBranch modality with
     | Except.error _ => true
     | Except.ok _ => false)

/-- The lidar3d tracker distance threshold computed by the constructor:
`sqrt(((dx - 1) * size)^2 + ((dy - 1) * size)^2) * 0.8` from the pattern
dimension and physical square size. -/
noncomputable def tracker_threshold (dimension_x dimension_y : Nat) (size : ℝ) : ℝ :=
  Real.sqrt ((((dimension_x : ℝ) - 1) * size) ^ 2 + (((dimension_y : ℝ) - 1) * size) ^ 2) * 0.8

/-- C1: the claim says that a lidar2d frame with no valid point yields
detected=false, an empty index list and no error.  The code instead raises:
with every range below `minimum_range_value` the cluster list stays empty
and `clusters[idx_closest_cluster]` raises IndexError.  Here the code is
evaluated at such a frame (all ranges below 0.3). -/
theorem lidar2d_no_valid_point_raises :
    lidar2dLabelData { detected := false, idxs := [] } minimum_range_value threshold
      [1/10, 1/5, 1/10] [1, 2, 1] [0, 0, 0] 0 0 = Except.error ("IndexError") := by
  with_unfolding_all rfl

/-- C6: the lidar2d labeling pass is a pure function of the frame and the
seed; the labels state left over from any previous pass is reset first, so
running clustering plus association twice on the same frame and the same
seed yields identical results, whatever labels state each run starts from. -/
theorem lidar2d_label_pass_state_independent (L1 L2 : Labels) (minv thr : ℚ)
    (ranges xs ys : List ℚ) (xm ym : ℚ) :
    lidar2dLabelData L1 minv thr ranges xs ys xm ym
      = lidar2dLabelData L2 minv thr ranges xs ys xm ym := rfl

/-- C7: the lidar3d tracker distance threshold equals 0.8 times the
diagonal of the physical grid, both literally and in squared form. -/
theorem tracker_threshold_formula (dimension_x dimension_y : Nat) (size : ℝ) :
    tracker_threshold dimension_x dimension_y size
        = 0.8 * Real.sqrt ((((dimension_x : ℝ) - 1) * size) ^ 2
            + (((dimension_y : ℝ) - 1) * size) ^ 2)
      ∧ tracker_threshold dimension_x dimension_y size ^ 2
        = 0.8 ^ 2 * ((((dimension_x : ℝ) - 1) * size) ^ 2
            + (((dimension_y : ℝ) - 1) * size) ^ 2) := by
  constructor
  · rw [tracker_threshold, mul_comm]
  · rw [tracker_threshold, mul_pow, Real.sq_sqrt (by positivity), mul_comm]

/-- C2 counterexample: the claim states a border margin on each of the four
sides.  At candidate seed (1, 50) on a 100 by 100 image the per-side rule
resets (1 is inside the left margin of 2.5) while the code accepts the seed,
since its lower bound is 0, not the margin. -/
theorem depth_gate_left_margin_counterexample :
    depthSeedUpdate (1, 50) 100 100 = (1, 50)
      ∧ specBorderGate (1, 50) 100 100 = (50, 50)
      ∧ ((1 : ℚ), (50 : ℚ)) ≠ ((50 : ℚ), (50 : ℚ)) := by
  refine ⟨by with_unfolding_all decide, by with_unfolding_all decide, by with_unfolding_all decide⟩

/-- C2 (amended): the candidate seed is accepted exactly when
`0 < x < width - border_fraction*width` and
`0 < y < height - border_fraction*height` (the border margin applies only on
the right and bottom; on the left and top only strict positivity is
required); otherwise the seed resets to the rounded image center.  The two
concrete cases of the claim hold: (0,0) resets to (50,50) and (50,50) is
kept. -/
theorem depth_seed_gate_rule (s : ℚ × ℚ) (width height : Nat) :
    (0 < s.1 ∧ s.1 < (width : ℚ) - filter_border_edges * width
        ∧ 0 < s.2 ∧ s.2 < (height : ℚ) - filter_border_edges * height
      → depthSeedUpdate s width height = s)
    ∧ (¬ (0 < s.1 ∧ s.1 < (width : ℚ) - filter_border_edges * width
        ∧ 0 < s.2 ∧ s.2 < (height : ℚ) - filter_border_edges * height)
      → depthSeedUpdate s width height
          = (((pyRound ((width : ℚ) / 2) : Int) : ℚ), ((pyRound ((height : ℚ) / 2) : Int) : ℚ)))
    ∧ depthSeedUpdate (0, 0) 100 100 = (50, 50)
    ∧ depthSeedUpdate (50, 50) 100 100 = (50, 50) := by
  refine ⟨fun h => ?_, fun h => ?_, by with_unfolding_all decide, by with_unfolding_all decide⟩
  · rw [depthSeedUpdate, if_pos h]
  · rw [depthSeedUpdate, if_neg h]

/-- C2 witness: the amended rule applied at the two concrete seeds of the
claim. -/
theorem depth_seed_gate_rule_witness :
    depthSeedUpdate (50, 50) 100 100 = (50, 50)
      ∧ depthSeedUpdate (0, 0) 100 100
          = (((pyRound ((100 : ℚ) / 2) : Int) : ℚ), ((pyRound ((100 : ℚ) / 2) : Int) : ℚ)) :=
  ⟨(depth_seed_gate_rule (50, 50) 100 100).1 (by with_unfolding_all decide),
   (depth_seed_gate_rule (0, 0) 100 100).2.1 (by with_unfolding_all decide)⟩

/-- C8 counterexample: the claim says construction fails for every sensor
configuration with an unknown modality; with labeling disabled the
constructor falls through to the final else and succeeds. -/
theorem unknown_modality_disabled_constructs :
    constructorCheck ("sonar") false = Except.ok () ∧ ("sonar") ∉ knownModalities := by
  refine ⟨by with_unfolding_all decide, by with_unfolding_all decide⟩

/-- C8 (amended): with labeling enabled (the default), an unknown modality
raises at construction time; and after any successful construction the
per-frame unknown-modality error can never be raised, because `labelData`
runs only when labeling is enabled and then only for a known modality. -/
theorem unknown_modality_construction (modality : String) (label_data : Bool) :
    (modality ∉ knownModalities → label_data = true →
      constructorCheck modality label_data
        = Except.error ("Message type " ++ modality ++ " is of an unknown type"))
    ∧ (constructorCheck modality label_data = Except.ok () →
      sensorCallbackRaisesUnknownModality modality label_data = false) := by
  constructor
  · intro hmem hld
    subst hld
    simp only [knownModalities, List.mem_cons, List.not_mem_nil, or_false, not_or] at hmem
    obtain ⟨h1, h2, h3, h4⟩ := hmem
    simp [constructorCheck, h1, h2, h3, h4]
  · intro hok
    cases label_data with
    | false => rfl
    | true =>
      rw [sensorCallbackRaisesUnknownModality]
      by_cases h1 : modality = "lidar2d"
      · simp [labelDataBranch, h1]
      by_cases h2 : modality = "rgb"
      · simp [labelDataBranch, h1, h2]
      by_cases h3 : modality = "lidar3d"
      · simp [labelDataBranch, h1, h2, h3]
      by_cases h4 : modality = "depth"
      · simp [labelDataBranch, h1, h2, h3, h4]
      exfalso
      simp [constructorCheck, h1, h2, h3, h4] at hok

/-- C8 witness: an unknown modality with labeling enabled raises at
construction, and a known modality that constructs never raises the
per-frame unknown-modality error. -/
theorem unknown_modality_construction_witness :
    constructorCheck ("sonar") true
        = Except.error ("Message type " ++ "sonar" ++ " is of an unknown type")
      ∧ sensorCallbackRaisesUnknownModality ("rgb") true = false :=
  ⟨(unknown_modality_construction ("sonar") true).1 (by with_unfolding_all decide) rfl,
   (unknown_modality_construction ("rgb") true).2 (by with_unfolding_all decide)⟩

/-- C10: in the validity check of the clustering loop the predecessor of
index 0 is Python index -1, the last element of the range array, so the
first scan point is skipped exactly when its own range or the final range
reading is below the threshold; at every positive index the predecessor is
the literal previous index. -/
theorem skip_rule_wraparound (minv : ℚ) (ranges : List ℚ) (hne : ranges ≠ []) :
    (skipPoint minv ranges 0 = true
        ↔ (ranges.getD 0 0 < minv ∨ ranges.getD (ranges.length - 1) 0 < minv))
    ∧ ∀ idx : Nat, 0 < idx →
        (skipPoint minv ranges idx = true
          ↔ (ranges.getD idx 0 < minv ∨ ranges.getD (idx - 1) 0 < minv)) := by
  constructor
  · rw [skipPoint, pyGet, pyGet]
    have e0 : ¬ (((0 : Nat) : Int) < 0) := by omega
    rw [if_neg e0, if_pos (by omega : ((0 : Nat) : Int) - 1 < 0)]
    have e1 : (((0 : Nat) : Int)).toNat = 0 := by omega
    have e2 : (-(((0 : Nat) : Int) - 1)).toNat = 1 := by omega
    rw [e1, e2]
    simp only [Bool.or_eq_true, decide_eq_true_eq]
  · intro idx hidx
    rw [skipPoint, pyGet, pyGet]
    have e0 : ¬ ((idx : Int) < 0) := by omega
    have e1 : ¬ ((idx : Int) - 1 < 0) := by omega
    rw [if_neg e0, if_neg e1]
    have e2 : ((idx : Int)).toNat = idx := by omega
    have e3 : (((idx : Int)) - 1).toNat = idx - 1 := by omega
    rw [e2, e3]
    simp only [Bool.or_eq_true, decide_eq_true_eq]

/-- C10 witness: the wraparound rule evaluated on a concrete scan whose
final reading is below the threshold, which makes index 0 skipped. -/
theorem skip_rule_wraparound_witness :
    ([1, 2, 1/10] : List ℚ) ≠ []
      ∧ (skipPoint minimum_range_value [1, 2, 1/10] 0 = true
          ↔ (([1, 2, 1/10] : List ℚ).getD 0 0 < minimum_range_value
            ∨ ([1, 2, 1/10] : List ℚ).getD (([1, 2, 1/10] : List ℚ).length - 1) 0
                < minimum_range_value)) :=
  ⟨by with_unfolding_all decide,
   (skip_rule_wraparound minimum_range_value [1, 2, 1/10] (by with_unfolding_all decide)).1⟩

/-- C3 counterexample: on the empty range array every hypothesis of the
claim holds vacuously, yet the clusterer produces zero clusters, not
exactly one. -/
theorem empty_scan_yields_no_cluster :
    (clusterRanges minimum_range_value threshold [] [] []).clusters.length ≠ 1 := by
  with_unfolding_all decide

set_option maxRecDepth 10000 in
/-- C4 counterexample: with the marker at the origin and two single-point
clusters at distances sys.maxint + 2 and sys.maxint + 1, no point beats the
`min_dist = sys.maxint` sentinel, so cluster 0 is selected although the
point nearest to the seed (index 1) lies in cluster 1. -/
theorem association_maxint_counterexample :
    (clusterRanges minimum_range_value threshold [1, 1]
        [sys_maxint + 2, -(sys_maxint + 1)] [0, 0]).clusters
      = [{ cluster_count := 0, idxs := [0] }, { cluster_count := 1, idxs := [1] }]
    ∧ association [sys_maxint + 2, -(sys_maxint + 1)] [0, 0] 0 0
        (clusterRanges minimum_range_value threshold [1, 1]
          [sys_maxint + 2, -(sys_maxint + 1)] [0, 0]).clusters = 0
    ∧ ((0 : ℚ) - ([sys_maxint + 2, -(sys_maxint + 1)] : List ℚ).getD 1 0) ^ 2
          + ((0 : ℚ) - ([0, 0] : List ℚ).getD 1 0) ^ 2
        < ((0 : ℚ) - ([sys_maxint + 2, -(sys_maxint + 1)] : List ℚ).getD 0 0) ^ 2
          + ((0 : ℚ) - ([0, 0] : List ℚ).getD 0 0) ^ 2 := by
  refine ⟨by with_unfolding_all decide, by with_unfolding_all decide,
    by with_unfolding_all decide⟩

theorem lastD_singleton {α : Type} (c d : α) : lastD [c] d = c := rfl

theorem lastD_range (n : Nat) (hn : 0 < n) : lastD (List.range n) 0 = n - 1 := by
  rw [lastD, List.length_range]
  rw [List.getD_eq_getElem _ _ (by rw [List.length_range]; omega)]
  exact List.getElem_range _ (by rw [List.length_range]; omega)

/-- A point whose own range and whose predecessor range are both valid is
not skipped. -/
theorem skipPoint_false_of_valid (minv : ℚ) (ranges : List ℚ)
    (hvalid : ∀ i ∈ List.range ranges.length, minv ≤ ranges.getD i 0)
    (idx : Nat) (hidx : idx < ranges.length) :
    skipPoint minv ranges idx = false := by
  have hv : ∀ i, i < ranges.length → minv ≤ ranges.getD i 0 := by
    intro i hi
    exact hvalid i (List.mem_range.mpr hi)
  rw [skipPoint]
  have h1 : ¬ pyGet ranges (idx : Int) < minv := by
    rw [pyGet, if_neg (by omega : ¬ ((idx : Int) < 0))]
    have e : ((idx : Int)).toNat = idx := by omega
    rw [e]
    exact not_lt.mpr (hv idx hidx)
  have h2 : ¬ pyGet ranges ((idx : Int) - 1) < minv := by
    rcases Nat.eq_zero_or_pos idx with h0 | h0
    · subst h0
      rw [pyGet, if_pos (by omega : ((0 : Nat) : Int) - 1 < 0)]
      have e : (-(((0 : Nat) : Int) - 1)).toNat = 1 := by omega
      rw [e]
      exact not_lt.mpr (hv (ranges.length - 1) (by omega))
    · rw [pyGet, if_neg (by omega : ¬ ((idx : Int) - 1 < 0))]
      have e : (((idx : Int)) - 1).toNat = idx - 1 := by omega
      rw [e]
      exact not_lt.mpr (hv (idx - 1) (by omega))
  simp [h1, h2]

/-- Closed form of the clustering fold on a uniformly valid, uniformly
close scan: after the first k indices there is a single cluster holding
0 .. k-1. -/
theorem clusterRanges_uniform_aux (minv thr : ℚ) (ranges xs ys : List ℚ)
    (hvalid : ∀ i ∈ List.range ranges.length, minv ≤ ranges.getD i 0)
    (hclose : ∀ i ∈ List.range (ranges.length - 1),
      (xs.getD (i + 1) 0 - xs.getD i 0) ^ 2 + (ys.getD (i + 1) 0 - ys.getD i 0) ^ 2 ≤ thr ^ 2) :
    ∀ k : Nat, 0 < k → k ≤ ranges.length →
      (List.range k).foldl (clusterStep minv thr ranges xs ys)
          { clusters := [], cluster_counter := 0, first_iteration := true }
        = { clusters := [{ cluster_count := 0, idxs := List.range k }],
            cluster_counter := 0, first_iteration := false } := by
  intro k
  induction k with
  | zero => omega
  | succ n ih =>
    intro _ hle
    rw [List.range_succ, List.foldl_append, List.foldl_cons, List.foldl_nil]
    rcases Nat.eq_zero_or_pos n with hn | hn
    · subst hn
      rw [List.range_zero, List.foldl_nil]
      have hskip : skipPoint minv ranges 0 = false :=
        skipPoint_false_of_valid minv ranges hvalid 0 (by omega)
      simp [clusterStep, hskip, List.range_succ]
    · rw [ih hn (by omega)]
      have hskip : skipPoint minv ranges n = false :=
        skipPoint_false_of_valid minv ranges hvalid n (by omega)
      have hlast : lastD (List.range n) 0 = n - 1 := lastD_range n hn
      have hc := hclose (n - 1) (List.mem_range.mpr (by omega))
      rw [Nat.sub_add_cancel hn] at hc
      simp only [clusterStep, hskip, Bool.false_eq_true, if_false, lastD_singleton, hlast]
      rw [if_neg (not_lt.mpr hc)]
      simp [pushIdx, List.range_succ]

/-- C3 (amended): for every nonempty range array in which no reading is
below the minimum-valid threshold and every pair of consecutive Cartesian
points is within the distance threshold (squared comparison), the clusterer
produces exactly one cluster holding all indices in input order. -/
theorem single_cluster_of_uniform_valid (minv thr : ℚ) (ranges xs ys : List ℚ)
    (hne : ranges ≠ [])
    (hvalid : ∀ i ∈ List.range ranges.length, minv ≤ ranges.getD i 0)
    (hclose : ∀ i ∈ List.range (ranges.length - 1),
      (xs.getD (i + 1) 0 - xs.getD i 0) ^ 2 + (ys.getD (i + 1) 0 - ys.getD i 0) ^ 2 ≤ thr ^ 2) :
    (clusterRanges minv thr ranges xs ys).clusters
      = [{ cluster_count := 0, idxs := List.range ranges.length }] := by
  have hlen : 0 < ranges.length := List.length_pos.mpr hne
  rw [clusterRanges, clusterRanges_uniform_aux minv thr ranges xs ys hvalid hclose
    ranges.length hlen le_rfl]

/-- C3 witness: a concrete two-point scan with valid ranges and close
points forms the single cluster holding indices 0 and 1. -/
theorem single_cluster_of_uniform_valid_witness :
    (clusterRanges minimum_range_value threshold [1, 1] [0, 1/10] [0, 0]).clusters
      = [{ cluster_count := 0, idxs := List.range (([1, 1] : List ℚ)).length }] :=
  single_cluster_of_uniform_valid minimum_range_value threshold [1, 1] [0, 1/10] [0, 0]
    (by with_unfolding_all decide) (by with_unfolding_all decide)
    (by with_unfolding_all decide)

/-- When no entry improves on the accumulator, the association scan keeps
the accumulator. -/
theorem scanMin_no_update : ∀ (l : List (Nat × ℚ)) (acc : Nat × ℚ),
    (∀ q ∈ l, ¬ q.2 < acc.2) → scanMin l acc = acc
  | [], _, _ => rfl
  | p :: rest, acc, h => by
    show scanMin rest (if p.2 < acc.2 then p else acc) = acc
    rw [if_neg (h p (List.mem_cons_self p rest))]
    exact scanMin_no_update rest acc (fun q hq => h q (List.mem_cons_of_mem p hq))

/-- The cluster index returned by the association scan is the initial one
or the tag of some scanned point. -/
theorem scanMin_fst_mem (l : List (Nat × ℚ)) : ∀ acc : Nat × ℚ,
    (scanMin l acc).1 = acc.1 ∨ ∃ q ∈ l, (scanMin l acc).1 = q.1 := by
  induction l with
  | nil => intro acc; exact Or.inl rfl
  | cons p rest ih =>
    intro acc
    show (scanMin rest (if p.2 < acc.2 then p else acc)).1 = acc.1
        ∨ ∃ q ∈ p :: rest, (scanMin rest (if p.2 < acc.2 then p else acc)).1 = q.1
    by_cases hc : p.2 < acc.2
    · rw [if_pos hc]
      rcases ih p with h | ⟨q, hq, hq2⟩
      · exact Or.inr ⟨p, List.mem_cons_self p rest, h⟩
      · exact Or.inr ⟨q, List.mem_cons_of_mem p hq, hq2⟩
    · rw [if_neg hc]
      rcases ih acc with h | ⟨q, hq, hq2⟩
      · exact Or.inl h
      · exact Or.inr ⟨q, List.mem_cons_of_mem p hq, hq2⟩

/-- When some entry beats the initial minimum, the association scan returns
the earliest entry attaining the least squared distance: the list splits
into a strict-greater prefix, that entry, and a never-strictly-smaller
suffix. -/
theorem scanMin_first_min : ∀ (l : List (Nat × ℚ)) (j0 : Nat) (m0 : ℚ),
    (∃ q ∈ l, q.2 < m0) →
    ∃ l1 p l2, l = l1 ++ p :: l2
      ∧ (∀ q ∈ l1, p.2 < q.2)
      ∧ (∀ q ∈ l, p.2 ≤ q.2)
      ∧ p.2 < m0
      ∧ scanMin l (j0, m0) = p := by
  intro l
  induction l with
  | nil =>
    intro j0 m0 hex
    simp at hex
  | cons hd tl ih =>
    obtain ⟨t, d⟩ := hd
    intro j0 m0 hex
    by_cases hlt : d < m0
    · by_cases hrest : ∃ q ∈ tl, q.2 < d
      · obtain ⟨l1, p, l2, heq, hpre, hall, hm, hscan⟩ := ih t d hrest
        refine ⟨(t, d) :: l1, p, l2, by rw [heq, List.cons_append], ?_, ?_, lt_trans hm hlt, ?_⟩
        · intro q hq
          rcases List.mem_cons.mp hq with h | h
          · rw [h]
            exact hm
          · exact hpre q h
        · intro q hq
          rcases List.mem_cons.mp hq with h | h
          · rw [h]
            exact le_of_lt hm
          · exact hall q h
        · show scanMin tl (if (t, d).2 < (j0, m0).2 then (t, d) else (j0, m0)) = p
          rw [if_pos hlt]
          exact hscan
      · have hrest2 : ∀ q ∈ tl, ¬ q.2 < d := by
          intro q hq hqd
          exact hrest ⟨q, hq, hqd⟩
        refine ⟨[], (t, d), tl, rfl, by simp, ?_, hlt, ?_⟩
        · intro q hq
          rcases List.mem_cons.mp hq with h | h
          · rw [h]
          · exact le_of_not_lt (hrest2 q h)
        · show scanMin tl (if (t, d).2 < (j0, m0).2 then (t, d) else (j0, m0)) = (t, d)
          rw [if_pos hlt]
          exact scanMin_no_update tl (t, d) hrest2
    · have hex2 : ∃ q ∈ tl, q.2 < m0 := by
        obtain ⟨q, hq, hqlt⟩ := hex
        rcases List.mem_cons.mp hq with h | h
        · rw [h] at hqlt
          exact absurd hqlt hlt
        · exact ⟨q, h, hqlt⟩
      obtain ⟨l1, p, l2, heq, hpre, hall, hm, hscan⟩ := ih j0 m0 hex2
      have hmd : p.2 < d := lt_of_lt_of_le hm (le_of_not_lt hlt)
      refine ⟨(t, d) :: l1, p, l2, by rw [heq, List.cons_append], ?_, ?_, hm, ?_⟩
      · intro q hq
        rcases List.mem_cons.mp hq with h | h
        · rw [h]
          exact hmd
        · exact hpre q h
      · intro q hq
        rcases List.mem_cons.mp hq with h | h
        · rw [h]
          exact le_of_lt hmd
        · exact hall q h
      · show scanMin tl (if (t, d).2 < (j0, m0).2 then (t, d) else (j0, m0)) = p
        rw [if_neg hlt]
        exact hscan

/-- One clustering step preserves the invariant that every cluster holds at
least one index. -/
theorem clusterStep_idxs_ne_nil (minv thr : ℚ) (ranges xs ys : List ℚ)
    (st : ClusterState) (idx : Nat)
    (h : ∀ c ∈ st.clusters, c.idxs ≠ []) :
    ∀ c ∈ (clusterStep minv thr ranges xs ys st idx).clusters, c.idxs ≠ [] := by
  intro c hc
  rw [clusterStep] at hc
  by_cases hskip : skipPoint minv ranges idx = true
  · rw [if_pos hskip] at hc
    exact h c hc
  · rw [if_neg hskip] at hc
    by_cases hfirst : st.first_iteration = true
    · rw [if_pos hfirst] at hc
      rcases List.mem_append.mp hc with h1 | h1
      · exact h c h1
      · rw [List.mem_singleton.mp h1]
        simp
    · rw [if_neg hfirst] at hc
      by_cases hdist : thr ^ 2
          < (xs.getD idx 0 - xs.getD (lastD (lastD st.clusters default).idxs 0) 0) ^ 2
            + (ys.getD idx 0 - ys.getD (lastD (lastD st.clusters default).idxs 0) 0) ^ 2
      · rw [if_pos hdist] at hc
        rcases List.mem_append.mp hc with h1 | h1
        · exact h c h1
        · rw [List.mem_singleton.mp h1]
          simp
      · rw [if_neg hdist] at hc
        rcases List.mem_append.mp hc with h1 | h1
        · exact h c (List.dropLast_subset st.clusters h1)
        · rw [List.mem_singleton.mp h1]
          rw [pushIdx]
          simp

/-- Every cluster produced by the clustering pass holds at least one
index. -/
theorem clusterRanges_idxs_ne_nil (minv thr : ℚ) (ranges xs ys : List ℚ) :
    ∀ c ∈ (clusterRanges minv thr ranges xs ys).clusters, c.idxs ≠ [] := by
  rw [clusterRanges]
  have key : ∀ (l : List Nat) (st : ClusterState), (∀ c ∈ st.clusters, c.idxs ≠ []) →
      ∀ c ∈ (l.foldl (clusterStep minv thr ranges xs ys) st).clusters, c.idxs ≠ [] := by
    intro l
    induction l with
    | nil => intro st h; exact h
    | cons a l ih =>
      intro st h
      rw [List.foldl_cons]
      exact ih _ (clusterStep_idxs_ne_nil minv thr ranges xs ys st a h)
  exact key (List.range ranges.length) _ (by simp)

/-- Every tag produced by the flattened association scan is below the
starting cluster index plus the number of clusters. -/
theorem clusterPointsAux_fst_lt (xs ys : List ℚ) (xm ym : ℚ) :
    ∀ (cs : List LaserScanCluster) (ci : Nat) (q : Nat × ℚ),
      q ∈ clusterPointsAux xs ys xm ym ci cs → q.1 < ci + cs.length := by
  intro cs
  induction cs with
  | nil =>
    intro ci q hq
    rw [clusterPointsAux] at hq
    simp at hq
  | cons c rest ih =>
    intro ci q hq
    rw [clusterPointsAux] at hq
    rcases List.mem_append.mp hq with h | h
    · obtain ⟨idx, _, heq⟩ := List.mem_map.mp h
      rw [← heq]
      simp
    · have := ih (ci + 1) q h
      simp only [List.length_cons]
      omega

/-- A nonempty cluster list with nonempty clusters yields a nonempty
association scan. -/
theorem clusterPointsAux_ne_nil (xs ys : List ℚ) (xm ym : ℚ) (ci : Nat)
    (c : LaserScanCluster) (rest : List LaserScanCluster) (hc : c.idxs ≠ []) :
    clusterPointsAux xs ys xm ym ci (c :: rest) ≠ [] := by
  rw [clusterPointsAux]
  intro h
  rcases List.append_eq_nil.mp h with ⟨h1, _⟩
  exact hc (List.map_eq_nil_iff.mp h1)

/-- C4 (amended): for every lidar2d frame that yields at least one cluster,
provided every scanned point is strictly closer to the seed than the
sys.maxint sentinel, the cluster selected by the association stage is the
one containing the point nearest to the seed, ties resolved in favour of
the first point in cluster-then-index iteration order: the scan order
splits into a strictly farther prefix, the winning point, and a
never-strictly-closer suffix, and the selected cluster index is the tag of
the winning point. -/
theorem association_first_min (minv thr : ℚ) (ranges xs ys : List ℚ) (xm ym : ℚ)
    (hne : (clusterRanges minv thr ranges xs ys).clusters ≠ [])
    (hbound : ∀ q ∈ clusterPoints xs ys xm ym (clusterRanges minv thr ranges xs ys).clusters,
      q.2 < sys_maxint ^ 2) :
    ∃ l1 p l2,
      clusterPoints xs ys xm ym (clusterRanges minv thr ranges xs ys).clusters = l1 ++ p :: l2
      ∧ (∀ q ∈ l1, p.2 < q.2)
      ∧ (∀ q ∈ clusterPoints xs ys xm ym (clusterRanges minv thr ranges xs ys).clusters,
          p.2 ≤ q.2)
      ∧ association xs ys xm ym (clusterRanges minv thr ranges xs ys).clusters = p.1 := by
  obtain ⟨c, rest, hcs⟩ :
      ∃ c rest, (clusterRanges minv thr ranges xs ys).clusters = c :: rest := by
    cases h : (clusterRanges minv thr ranges xs ys).clusters with
    | nil => exact absurd h hne
    | cons c rest => exact ⟨c, rest, rfl⟩
  have hcne : c.idxs ≠ [] := by
    apply clusterRanges_idxs_ne_nil minv thr ranges xs ys
    rw [hcs]
    exact List.mem_cons_self c rest
  have hptsne : clusterPoints xs ys xm ym (clusterRanges minv thr ranges xs ys).clusters ≠ [] := by
    rw [clusterPoints, hcs]
    exact clusterPointsAux_ne_nil xs ys xm ym 0 c rest hcne
  obtain ⟨q0, hq0⟩ := List.exists_mem_of_ne_nil _ hptsne
  obtain ⟨l1, p, l2, heq, hpre, hall, _, hscan⟩ :=
    scanMin_first_min (clusterPoints xs ys xm ym (clusterRanges minv thr ranges xs ys).clusters)
      0 (sys_maxint ^ 2) ⟨q0, hq0, hbound q0 hq0⟩
  refine ⟨l1, p, l2, heq, hpre, hall, ?_⟩
  rw [association, hscan]

/-- C4 witness: a frame with two clusters where the nearest point to the
seed is index 1 in cluster 1; the association stage selects that cluster. -/
theorem association_first_min_witness :
    ∃ l1 p l2,
      clusterPoints [0, 1] [0, 0] (9/10) 0
          (clusterRanges minimum_range_value threshold [1, 1] [0, 1] [0, 0]).clusters
        = l1 ++ p :: l2
      ∧ (∀ q ∈ l1, p.2 < q.2)
      ∧ (∀ q ∈ clusterPoints [0, 1] [0, 0] (9/10) 0
          (clusterRanges minimum_range_value threshold [1, 1] [0, 1] [0, 0]).clusters,
          p.2 ≤ q.2)
      ∧ association [0, 1] [0, 0] (9/10) 0
          (clusterRanges minimum_range_value threshold [1, 1] [0, 1] [0, 0]).clusters = p.1 :=
  association_first_min minimum_range_value threshold [1, 1] [0, 1] [0, 0] (9/10) 0
    (by with_unfolding_all decide) (by with_unfolding_all decide)

theorem pyInt_zero : pyInt 0 = 0 := by
  rw [pyInt, if_pos le_rfl]
  exact Int.floor_zero

/-- Folding addition of a mapped value over a list equals the starting
value plus the sum of the mapped list. -/
theorem foldl_add_map (f : Nat → ℚ) : ∀ (l : List Nat) (s : ℚ),
    l.foldl (fun a idx => a + f idx) s = s + (l.map f).sum
  | [], s => by simp
  | i :: l, s => by
    rw [List.foldl_cons, foldl_add_map f l (s + f i), List.map_cons, List.sum_cons]
    ring

/-- The association result is a valid index into a nonempty cluster
list. -/
theorem association_lt_length (xs ys : List ℚ) (xm ym : ℚ)
    (clusters : List LaserScanCluster) (hne : clusters ≠ []) :
    association xs ys xm ym clusters < clusters.length := by
  rw [association]
  rcases scanMin_fst_mem (clusterPoints xs ys xm ym clusters) (0, sys_maxint ^ 2)
    with h | ⟨q, hq, h⟩
  · rw [h]
    exact List.length_pos.mpr hne
  · rw [h]
    have := clusterPointsAux_fst_lt xs ys xm ym clusters 0 q hq
    omega

/-- C5: whenever a cluster is selected (the cluster list is nonempty), the
labels hold the full index list of the selected cluster (the end-trimming
fraction is 0, so the slice removes nothing), and the marker moves to the
centroid of the selected cluster with z = 0. -/
theorem lidar2d_selected_cluster_output (L : Labels) (minv thr : ℚ)
    (ranges xs ys : List ℚ) (xm ym : ℚ)
    (hne : (clusterRanges minv thr ranges xs ys).clusters ≠ []) :
    ∃ closest,
      (clusterRanges minv thr ranges xs ys).clusters[association xs ys xm ym
          (clusterRanges minv thr ranges xs ys).clusters]? = some closest
      ∧ lidar2dLabelData L minv thr ranges xs ys xm ym
        = Except.ok ({ detected := true, idxs := closest.idxs },
            (closest.idxs.map (fun idx => xs.getD idx 0)).sum / (closest.idxs.length : ℚ),
            (closest.idxs.map (fun idx => ys.getD idx 0)).sum / (closest.idxs.length : ℚ),
            0) := by
  have hlt := association_lt_length xs ys xm ym (clusterRanges minv thr ranges xs ys).clusters hne
  obtain ⟨closest, hsome⟩ :
      ∃ x, (clusterRanges minv thr ranges xs ys).clusters[association xs ys xm ym
        (clusterRanges minv thr ranges xs ys).clusters]? = some x := by
    rw [List.getElem?_eq_getElem hlt]
    exact ⟨_, rfl⟩
  refine ⟨closest, hsome, ?_⟩
  unfold lidar2dLabelData
  simp only [hsome]
  simp [foldl_add_map, percentage_points_to_remove, pyInt_zero, List.take_length]

/-- C5 witness: a concrete frame with a single two-point cluster; the
labels hold both indices and the marker moves to the cluster centroid. -/
theorem lidar2d_selected_cluster_output_witness :
    ∃ closest,
      (clusterRanges minimum_range_value threshold [1, 1] [0, 1/10] [0, 0]).clusters[
          association [0, 1/10] [0, 0] 0 0
            (clusterRanges minimum_range_value threshold [1, 1] [0, 1/10] [0, 0]).clusters]?
        = some closest
      ∧ lidar2dLabelData { detected := true, idxs := [5] } minimum_range_value threshold
          [1, 1] [0, 1/10] [0, 0] 0 0
        = Except.ok ({ detected := true, idxs := closest.idxs },
            (closest.idxs.map (fun idx => ([0, 1/10] : List ℚ).getD idx 0)).sum
              / (closest.idxs.length : ℚ),
            (closest.idxs.map (fun idx => ([0, 0] : List ℚ).getD idx 0)).sum
              / (closest.idxs.length : ℚ),
            0) :=
  lidar2d_selected_cluster_output { detected := true, idxs := [5] } minimum_range_value threshold
    [1, 1] [0, 1/10] [0, 0] 0 0 (by with_unfolding_all decide)
